import Mathlib

/-!
# Verification of the `iced` vector render cache and `Radio` widget

A shallow embedding of two subsystems of the repository:

* `src/wgpu/src/image/vector.rs` — the SVG rasterization cache (`Cache`
  with `load`, `upload`, `trim`); the Rust `HashMap`s become association
  lists, the `HashSet`s become duplicate-free lists, `Rc<wgpu::BindGroup>`
  becomes an allocation identifier handed out by a `Device` counter (Rc
  pointer equality is equality of identifiers), and the external SVG
  parser (`usvg::Tree::from_file`) becomes an environment function from
  a path to an optional parsed tree.  The `f32` size arithmetic of
  `upload` is embedded over `ℚ` with the same rounding behaviour (for
  non-negative inputs, `f32::round` is round-half-away-from-zero, which
  agrees with `round` on `ℚ`; the concrete inputs evaluated below are
  exactly representable in `f32`).

* `src/native/src/widget/radio.rs` — the `Radio` widget (`new`,
  `on_event`, `hash_layout`); the `Box<dyn Fn() -> Message>` click
  closure becomes a Lean function `Unit → M`, and the standard-library
  `Hasher` becomes the list of data values fed to it.
-/

set_option autoImplicit false

namespace Iced

universe u v

/-! ## Association-list maps and lists-as-sets

Executable stand-ins for `std::collections::HashMap` / `HashSet`.
`AList.insert` overwrites in place (`HashMap::insert` semantics);
`SList.insert` adds the element only when absent (`HashSet::insert`). -/

namespace AList

variable {K : Type u} {V : Type v} [DecidableEq K]

/-- The `HashMap::get` — the value stored at key `k`, if any. -/
def find? (l : List (K × V)) (k : K) : Option V :=
  match l with
  | [] => none
  | (k', v) :: t => if k' = k then some v else find? t k

/-- The `HashMap::contains_key`. -/
def containsKey (l : List (K × V)) (k : K) : Bool :=
  (find? l k).isSome

/-- The `HashMap::insert` — overwrite the entry for `k` in place, or append
a fresh entry when the key is absent. -/
def insert (l : List (K × V)) (k : K) (v : V) : List (K × V) :=
  match l with
  | [] => [(k, v)]
  | (k', v') :: t => if k' = k then (k, v) :: t else (k', v') :: insert t k v

/-- The keys of the map, in storage order. -/
def keys (l : List (K × V)) : List K :=
  l.map Prod.fst

/-- The `HashMap::retain` — keep only the entries whose key satisfies `p`. -/
def retain (l : List (K × V)) (p : K → Bool) : List (K × V) :=
  l.filter (fun e => p e.1)

end AList

namespace SList

variable {K : Type u} [DecidableEq K]

/-- The `HashSet::insert` — add `k` when it is not already present. -/
def insert (l : List K) (k : K) : List K :=
  if k ∈ l then l else k :: l

end SList

/-! ## The data model of `src/wgpu/src/image/vector.rs`

The parsed tree type `resvg::usvg::Tree` is opaque to the cache, so the
whole development is polymorphic over the tree type `T`. -/

/-- The `enum Svg { Loaded { tree }, NotFound }`. -/
inductive Svg (T : Type u) : Type u where
  | Loaded (tree : T)
  | NotFound
  deriving DecidableEq, Repr

/-- The `iced_native::svg::Handle` — a content id together with the path the
content id was derived from. -/
structure Handle where
  id : Nat
  path : Nat
  deriving DecidableEq, Repr

/-- The `wgpu::Device`, reduced to what the cache observes of it: a
source of fresh `BindGroup` allocations.  A bitmap handle
(`Rc<wgpu::BindGroup>`) is the allocation identifier; `Rc::clone`
returns the identifier unchanged, so Rc pointer equality is `Nat`
equality. -/
structure Device where
  nextBindGroup : Nat
  deriving DecidableEq, Repr

/-- The `device.create_bind_group(..)` — allocate a fresh bind group. -/
def Device.createBindGroup (d : Device) : Nat × Device :=
  (d.nextBindGroup, ⟨d.nextBindGroup + 1⟩)

/-- The environment of parseable documents: what
`usvg::Tree::from_file(path, ..)` would return for each path (`none` is
`Err`). -/
def ParseEnv (T : Type u) : Type u := Nat → Option T

/-- The `struct Cache` of `vector.rs`: parsed documents keyed by content id,
rasterized bitmaps keyed by `(content_id, width, height)`, and the two
per-frame touched-sets. -/
structure Cache (T : Type u) : Type u where
  svgs : List (Nat × Svg T)
  rasterized : List ((Nat × Nat × Nat) × Nat)
  svg_hits : List Nat
  rasterized_hits : List (Nat × Nat × Nat)
  deriving DecidableEq, Repr

/-- The `Cache::new()`. -/
def Cache.new {T : Type u} : Cache T :=
  ⟨[], [], [], []⟩

/-- The `Cache::load`: return the cached entry for `handle.id()` when
present; otherwise parse `handle.path()`, cache `Loaded`/`NotFound`, and
return the fresh entry. -/
def Cache.load {T : Type u} (env : ParseEnv T) (c : Cache T) (handle : Handle) :
    Svg T × Cache T :=
  match AList.find? c.svgs handle.id with
  | some svg => (svg, c)
  | none =>
    let svg := match env handle.path with
      | some tree => Svg.Loaded tree
      | none => Svg.NotFound
    (svg, { c with svgs := AList.insert c.svgs handle.id svg })

/-- The `(scale * w).round() as u32` — the target pixel dimension computed
by `Cache::upload`.  `Int.toNat` clamps a negative rounding result to
`0` exactly as the saturating `as u32` cast does. -/
def targetDim (scale w : ℚ) : Nat :=
  (round (scale * w)).toNat

/-- The `Cache::upload`: scale the logical size to target pixel dimensions;
on an exact `(id, width, height)` hit, touch both hit sets and return a
clone of the stored bitmap; on a miss, load the document, bail out on a
zero target dimension or a `NotFound` document, and otherwise rasterize
into a freshly allocated bind group, store and touch it, and return it.
The pixel contents written through the encoder are device-side effects
the cache never observes; only the allocation is modelled. -/
def Cache.upload {T : Type u} (env : ParseEnv T) (c : Cache T) (handle : Handle)
    (size : ℚ × ℚ) (scale : ℚ) (device : Device) :
    Option Nat × Cache T × Device :=
  let id := handle.id
  let width := targetDim scale size.1
  let height := targetDim scale size.2
  match AList.find? c.rasterized (id, width, height) with
  | some bind_group =>
    (some bind_group,
      { c with
          svg_hits := SList.insert c.svg_hits id,
          rasterized_hits := SList.insert c.rasterized_hits (id, width, height) },
      device)
  | none =>
    match Cache.load env c handle with
    | (Svg.Loaded _tree, c1) =>
      if width = 0 ∨ height = 0 then
        (none, c1, device)
      else
        let (bind_group, device') := Device.createBindGroup device
        (some bind_group,
          { c1 with
              rasterized := AList.insert c1.rasterized (id, width, height) bind_group,
              svg_hits := SList.insert c1.svg_hits id,
              rasterized_hits := SList.insert c1.rasterized_hits (id, width, height) },
          device')
    | (Svg.NotFound, c1) => (none, c1, device)

/-- The `Cache::trim`: retain the entries whose keys are in the respective
hit sets, then clear both hit sets. -/
def Cache.trim {T : Type u} (c : Cache T) : Cache T :=
  { svgs := AList.retain c.svgs (fun k => decide (k ∈ c.svg_hits)),
    rasterized := AList.retain c.rasterized (fun k => decide (k ∈ c.rasterized_hits)),
    svg_hits := [],
    rasterized_hits := [] }

/-! ## Sequences of cache operations -/

/-- The arguments of one `Cache::upload` call. -/
structure UploadCall where
  handle : Handle
  w : ℚ
  h : ℚ
  scale : ℚ
  deriving DecidableEq, Repr

/-- The `(content_id, width, height)` triple an upload call resolves to. -/
def UploadCall.triple (a : UploadCall) : Nat × Nat × Nat :=
  (a.handle.id, targetDim a.scale a.w, targetDim a.scale a.h)

/-- Run a list of `upload` calls in order, collecting every returned
bitmap option together with the final cache and device. -/
def runUploads {T : Type u} (env : ParseEnv T) :
    List UploadCall → Cache T → Device → List (Option Nat) × Cache T × Device
  | [], c, d => ([], c, d)
  | a :: rest, c, d =>
    let r := Cache.upload env c a.handle (a.w, a.h) a.scale d
    let s := runUploads env rest r.2.1 r.2.2
    (r.1 :: s.1, s.2)

/-- One cache operation, carrying the parse environment in effect when
it runs (the filesystem may change between calls). -/
inductive Op (T : Type u) : Type u where
  | load (env : ParseEnv T) (handle : Handle)
  | upload (env : ParseEnv T) (call : UploadCall)
  | trim

/-- Apply one operation to a cache/device pair. -/
def Op.apply {T : Type u} : Op T → Cache T × Device → Cache T × Device
  | .load env handle, (c, d) => ((Cache.load env c handle).2, d)
  | .upload env a, (c, d) => (Cache.upload env c a.handle (a.w, a.h) a.scale d).2
  | .trim, (c, d) => (Cache.trim c, d)

/-- Run a list of operations in order. -/
def runOps {T : Type u} (ops : List (Op T)) (s : Cache T × Device) : Cache T × Device :=
  ops.foldl (fun s op => Op.apply op s) s

/-! ## Cache invariants -/

/-- The two key couplings between the rasterized side and the document
side of the cache: every rasterized key's content id is a parsed-cache
key, and every touched triple's content id is a touched document id. -/
def Coupled {T : Type u} (c : Cache T) : Prop :=
  (∀ k ∈ AList.keys c.rasterized, k.1 ∈ AList.keys c.svgs) ∧
  (∀ k ∈ c.rasterized_hits, k.1 ∈ c.svg_hits)

/-- The rasterized cache only ever holds entries produced by a
successful rasterization: nonzero pixel dimensions, and a `Loaded`
document cached under the entry's content id. -/
def GoodRasterized {T : Type u} (c : Cache T) : Prop :=
  ∀ k ∈ AList.keys c.rasterized,
    k.2.1 ≠ 0 ∧ k.2.2 ≠ 0 ∧ ∃ t, AList.find? c.svgs k.1 = some (Svg.Loaded t)

/-- A proof measure for the parsed-document cache: its entry count, plus
one budget unit while the content id `i` is not yet a key.  Uploads for
content id `i` never increase it. -/
def svgBudget {T : Type u} (c : Cache T) (i : Nat) : Nat :=
  c.svgs.length + (if i ∈ AList.keys c.svgs then 0 else 1)

/-! ## The data model of `src/native/src/widget/radio.rs` -/

/-- A point in logical coordinates (`iced_native::Point`, `f32` fields
embedded over `ℚ`). -/
structure Point where
  x : ℚ
  y : ℚ
  deriving DecidableEq, Repr

/-- An axis-aligned rectangle (`iced_native::Rectangle`). -/
structure Rectangle where
  x : ℚ
  y : ℚ
  width : ℚ
  height : ℚ
  deriving DecidableEq, Repr

/-- Modelled from the spec: `Rectangle::contains` lives outside the
provided sources; per the spec an event applies to a widget when the
"cursor position falls within its computed bounds", i.e. within the
closed box spanned by the rectangle. -/
def Rectangle.contains (b : Rectangle) (p : Point) : Bool :=
  decide (b.x ≤ p.x) && decide (p.x ≤ b.x + b.width) &&
    decide (b.y ≤ p.y) && decide (p.y ≤ b.y + b.height)

/-- The `iced_native::input::ButtonState`. -/
inductive ButtonState where
  | Pressed
  | Released
  deriving DecidableEq, Repr

/-- The `iced_native::input::mouse::Button` (reduced to the constructors the
widget distinguishes). -/
inductive MouseButton where
  | Left
  | Right
  | Middle
  deriving DecidableEq, Repr

/-- The `iced_native::input::mouse::Event`. -/
inductive MouseEvent where
  | Input (button : MouseButton) (state : ButtonState)
  | CursorMoved (x y : ℚ)
  | WheelScrolled (dx dy : ℚ)
  deriving DecidableEq, Repr

/-- The `iced_native::Event`. -/
inductive Event where
  | Mouse (e : MouseEvent)
  | Keyboard
  | Window
  deriving DecidableEq, Repr

/-- The `struct Radio<Message, Renderer>`: the selection flag, the stored
click closure, the label, and the renderer-specific style value `S`
(`Renderer::Style`).  `Box<dyn Fn() -> Message>` is a Lean function
`Unit → M`. -/
structure Radio (M : Type u) (S : Type v) : Type (max u v) where
  is_selected : Bool
  on_click : Unit → M
  label : String
  style : S

/-- The `Radio::new(value, label, selected, f)`: selected iff
`Some(value) == selected` (value equality), click closure
`move || f(value)`, default style. -/
def Radio.new {M : Type u} {S : Type v} {V : Type} [DecidableEq V] [Inhabited S]
    (value : V) (label : String) (selected : Option V) (f : V → M) : Radio M S :=
  { is_selected := decide (some value = selected),
    on_click := fun _ => f value,
    label := label,
    style := default }

/-- The `Radio::on_event`: on a left-button press with the cursor inside the
layout bounds, push one message produced by the click closure; leave the
sink alone otherwise.  The layout subtree is passed as its bounds
rectangle (`layout.bounds()` is all the widget reads of it). -/
def Radio.on_event {M : Type u} {S : Type v} (r : Radio M S) (event : Event)
    (bounds : Rectangle) (cursor_position : Point) (messages : List M) : List M :=
  match event with
  | Event.Mouse (MouseEvent.Input MouseButton.Left ButtonState.Pressed) =>
    if Rectangle.contains bounds cursor_position then
      messages ++ [r.on_click ()]
    else
      messages
  | _ => messages

/-- The standard-library `Hasher`, reduced to the sequence of data
values fed to it: two hashers that were fed equal data are in equal
states. -/
abbrev Hasher : Type := List Nat

/-- The `String::hash` — feed the string's bytes (and a length terminator,
as the std implementation does) into the hasher. -/
def hashString (s : String) (st : Hasher) : Hasher :=
  st ++ (s.toList.map Char.toNat) ++ [s.length]

/-- The `Radio::hash_layout`: `self.label.hash(state)` — only the label is
fed to the hasher. -/
def Radio.hash_layout {M : Type u} {S : Type v} (r : Radio M S) (state : Hasher) : Hasher :=
  hashString r.label state

/-- Whether an event is the left-mouse-button press that `Radio::on_event`
reacts to (the first pattern of its `match`). -/
def Event.isLeftPress : Event → Bool
  | Event.Mouse (MouseEvent.Input MouseButton.Left ButtonState.Pressed) => true
  | _ => false

/-! ## Concrete data used in the closed evaluations -/

/-- A parse environment in which every path parses to the document `0`. -/
def envOk : ParseEnv Nat := fun _ => some 0

/-- A parse environment in which every parse fails. -/
def envFail : ParseEnv Nat := fun _ => none

/-- A sample upload call: content id 7, path 3, logical size 100×100,
scale factor 2. -/
def callA : UploadCall := ⟨⟨7, 3⟩, 100, 100, 2⟩

/-- A sample upload call that fails against `envFail`: content id 7,
path 3, logical size 10×10, scale factor 1. -/
def callFail : UploadCall := ⟨⟨7, 3⟩, 10, 10, 1⟩

/-- The cache state after `callA` succeeds against `envOk` from a fresh
cache (document `0` parsed, one 200×200 bitmap with identifier `0`). -/
def cacheA : Cache Nat :=
  ⟨[(7, Svg.Loaded 0)], [((7, 200, 200), 0)], [7], [(7, 200, 200)]⟩

/-- The cache state after an upload against `envFail` from a fresh cache:
only the `NotFound` sentinel for content id 7. -/
def cacheNF : Cache Nat :=
  ⟨[(7, Svg.NotFound)], [], [], []⟩

/-! ## Lemmas about the map and set operations -/

namespace AList

variable {K : Type u} {V : Type v} [DecidableEq K]

theorem find?_insert_self (l : List (K × V)) (k : K) (v : V) :
    find? (insert l k v) k = some v := by
  induction l with
  | nil => simp [insert, find?]
  | cons e t ih =>
    by_cases h : e.1 = k <;> simp [insert, find?, h, ih]

theorem find?_insert_ne (l : List (K × V)) {k a : K} (v : V) (h : a ≠ k) :
    find? (insert l k v) a = find? l a := by
  have hka : ¬ k = a := fun hk => h hk.symm
  induction l with
  | nil => simp [insert, find?, hka]
  | cons e t ih =>
    by_cases he : e.1 = k
    · subst he
      simp [insert, find?, hka]
    · simp only [insert, he, if_false, find?]
      rw [ih]

theorem mem_keys_insert (l : List (K × V)) (k a : K) (v : V) :
    a ∈ keys (insert l k v) ↔ a = k ∨ a ∈ keys l := by
  induction l with
  | nil => simp [insert, keys]
  | cons e t ih =>
    by_cases he : e.1 = k
    · subst he
      simp [insert, keys]
    · simp only [insert, he, if_false, keys, List.map_cons, List.mem_cons]
      rw [keys] at ih
      rw [ih]
      tauto

theorem find?_isSome_iff_mem_keys (l : List (K × V)) (k : K) :
    (find? l k).isSome ↔ k ∈ keys l := by
  induction l with
  | nil => simp [find?, keys]
  | cons e t ih =>
    by_cases he : e.1 = k
    · subst he
      simp [find?, keys]
    · have hk : ¬ k = e.1 := fun hk => he hk.symm
      simp only [find?, he, if_false, keys, List.map_cons, List.mem_cons, hk,
        false_or]
      rw [keys] at ih
      exact ih

theorem find?_eq_none_of_not_mem_keys {l : List (K × V)} {k : K}
    (h : k ∉ keys l) : find? l k = none := by
  have := (find?_isSome_iff_mem_keys l k).not.mpr h
  cases hf : find? l k with
  | none => rfl
  | some v => rw [hf] at this; simp at this

theorem mem_keys_of_find?_eq_some {l : List (K × V)} {k : K} {v : V}
    (h : find? l k = some v) : k ∈ keys l := by
  rw [← find?_isSome_iff_mem_keys, h]
  rfl

theorem length_insert_le (l : List (K × V)) (k : K) (v : V) :
    (insert l k v).length ≤ l.length + 1 := by
  induction l with
  | nil => simp [insert]
  | cons e t ih =>
    by_cases he : e.1 = k
    · simp [insert, he]
    · simp only [insert, he, if_false, List.length_cons]
      omega

theorem length_insert_of_mem (l : List (K × V)) {k : K} (v : V)
    (h : k ∈ keys l) : (insert l k v).length = l.length := by
  induction l with
  | nil => simp [keys] at h
  | cons e t ih =>
    by_cases he : e.1 = k
    · simp [insert, he]
    · rw [keys, List.map_cons, List.mem_cons] at h
      rcases h with h | h
      · exact absurd h.symm he
      · simp [insert, he, ih (by rw [keys]; exact h)]

theorem find?_retain (l : List (K × V)) (p : K → Bool) (k : K) :
    find? (retain l p) k = if p k then find? l k else none := by
  induction l with
  | nil => simp [retain, find?]
  | cons e t ih =>
    simp only [retain] at ih ⊢
    by_cases he : e.1 = k
    · subst he
      by_cases hp : p e.1 <;> simp [List.filter_cons, find?, hp, ih]
    · by_cases hp : p e.1 <;> simp [List.filter_cons, find?, hp, he, ih]

theorem mem_keys_retain (l : List (K × V)) (p : K → Bool) (a : K) :
    a ∈ keys (retain l p) ↔ a ∈ keys l ∧ p a := by
  rw [← find?_isSome_iff_mem_keys, ← find?_isSome_iff_mem_keys, find?_retain]
  by_cases hp : p a <;> simp [hp]

end AList

namespace SList

variable {K : Type u} [DecidableEq K]

theorem mem_insert (l : List K) (k a : K) :
    a ∈ insert l k ↔ a = k ∨ a ∈ l := by
  by_cases h : k ∈ l
  · simp only [insert, h, if_true]
    constructor
    · exact Or.inr
    · rintro (rfl | ha)
      · exact h
      · exact ha
  · simp [insert, h]

theorem mem_insert_self (l : List K) (k : K) : k ∈ insert l k := by
  rw [mem_insert]
  exact Or.inl rfl

theorem mem_insert_of_mem (l : List K) (k : K) {a : K} (h : a ∈ l) :
    a ∈ insert l k := by
  rw [mem_insert]
  exact Or.inr h

end SList

/-! ## Branch equations for `load` and `upload` -/

namespace Cache

variable {T : Type u}

theorem load_of_find {env : ParseEnv T} {c : Cache T} {handle : Handle} {svg : Svg T}
    (hf : AList.find? c.svgs handle.id = some svg) :
    Cache.load env c handle = (svg, c) := by
  simp [Cache.load, hf]

theorem load_of_miss_parse {env : ParseEnv T} {c : Cache T} {handle : Handle} {tree : T}
    (hf : AList.find? c.svgs handle.id = none) (hp : env handle.path = some tree) :
    Cache.load env c handle =
      (Svg.Loaded tree,
       { c with svgs := AList.insert c.svgs handle.id (Svg.Loaded tree) }) := by
  simp [Cache.load, hf, hp]

theorem load_of_miss_fail {env : ParseEnv T} {c : Cache T} {handle : Handle}
    (hf : AList.find? c.svgs handle.id = none) (hp : env handle.path = none) :
    Cache.load env c handle =
      (Svg.NotFound,
       { c with svgs := AList.insert c.svgs handle.id Svg.NotFound }) := by
  simp [Cache.load, hf, hp]

theorem load_shape (env : ParseEnv T) (c : Cache T) (handle : Handle) :
    (Cache.load env c handle).2 = c ∨
      (Cache.load env c handle).2 =
        { c with svgs := AList.insert c.svgs handle.id (Cache.load env c handle).1 } := by
  cases hf : AList.find? c.svgs handle.id with
  | some svg => rw [load_of_find hf]; exact Or.inl rfl
  | none =>
    cases hp : env handle.path with
    | some tree => rw [load_of_miss_parse hf hp]; exact Or.inr rfl
    | none => rw [load_of_miss_fail hf hp]; exact Or.inr rfl

theorem load_find_self (env : ParseEnv T) (c : Cache T) (handle : Handle) :
    AList.find? (Cache.load env c handle).2.svgs handle.id =
      some (Cache.load env c handle).1 := by
  cases hf : AList.find? c.svgs handle.id with
  | some svg => rw [load_of_find hf]; exact hf
  | none =>
    cases hp : env handle.path with
    | some tree => rw [load_of_miss_parse hf hp]; exact AList.find?_insert_self ..
    | none => rw [load_of_miss_fail hf hp]; exact AList.find?_insert_self ..

theorem load_svgs_mono {env : ParseEnv T} {c : Cache T} {handle : Handle}
    {i : Nat} {s : Svg T} (h : AList.find? c.svgs i = some s) :
    AList.find? (Cache.load env c handle).2.svgs i = some s := by
  cases hf : AList.find? c.svgs handle.id with
  | some svg => rw [load_of_find hf]; exact h
  | none =>
    have hne : i ≠ handle.id := by
      rintro rfl
      rw [h] at hf
      cases hf
    rcases load_shape env c handle with hs | hs
    · rw [hs]; exact h
    · rw [hs]
      show AList.find? (AList.insert c.svgs handle.id _) i = some s
      rw [AList.find?_insert_ne _ _ hne]
      exact h

theorem load_mem_keys (env : ParseEnv T) (c : Cache T) (handle : Handle) (i : Nat) :
    i ∈ AList.keys (Cache.load env c handle).2.svgs ↔
      i = handle.id ∨ i ∈ AList.keys c.svgs := by
  cases hf : AList.find? c.svgs handle.id with
  | some svg =>
    rw [load_of_find hf]
    constructor
    · exact Or.inr
    · rintro (rfl | hi)
      · exact AList.mem_keys_of_find?_eq_some hf
      · exact hi
  | none =>
    cases hp : env handle.path with
    | some tree => rw [load_of_miss_parse hf hp]; exact AList.mem_keys_insert ..
    | none => rw [load_of_miss_fail hf hp]; exact AList.mem_keys_insert ..

theorem load_rasterized (env : ParseEnv T) (c : Cache T) (handle : Handle) :
    (Cache.load env c handle).2.rasterized = c.rasterized ∧
      (Cache.load env c handle).2.svg_hits = c.svg_hits ∧
      (Cache.load env c handle).2.rasterized_hits = c.rasterized_hits := by
  rcases load_shape env c handle with hs | hs
  · rw [hs]; exact ⟨rfl, rfl, rfl⟩
  · rw [hs]; exact ⟨rfl, rfl, rfl⟩

theorem upload_hit {env : ParseEnv T} {c : Cache T} {handle : Handle}
    {size : ℚ × ℚ} {scale : ℚ} {d : Device} {bg : Nat}
    (hf : AList.find? c.rasterized
      (handle.id, targetDim scale size.1, targetDim scale size.2) = some bg) :
    Cache.upload env c handle size scale d =
      (some bg,
       { c with
           svg_hits := SList.insert c.svg_hits handle.id,
           rasterized_hits := SList.insert c.rasterized_hits
             (handle.id, targetDim scale size.1, targetDim scale size.2) },
       d) := by
  simp [Cache.upload, hf]

theorem upload_miss_notFound {env : ParseEnv T} {c c1 : Cache T} {handle : Handle}
    {size : ℚ × ℚ} {scale : ℚ} {d : Device}
    (hf : AList.find? c.rasterized
      (handle.id, targetDim scale size.1, targetDim scale size.2) = none)
    (hl : Cache.load env c handle = (Svg.NotFound, c1)) :
    Cache.upload env c handle size scale d = (none, c1, d) := by
  simp [Cache.upload, hf, hl]

theorem upload_miss_zero {env : ParseEnv T} {c c1 : Cache T} {handle : Handle}
    {size : ℚ × ℚ} {scale : ℚ} {d : Device} {tree : T}
    (hf : AList.find? c.rasterized
      (handle.id, targetDim scale size.1, targetDim scale size.2) = none)
    (hl : Cache.load env c handle = (Svg.Loaded tree, c1))
    (hz : targetDim scale size.1 = 0 ∨ targetDim scale size.2 = 0) :
    Cache.upload env c handle size scale d = (none, c1, d) := by
  simp only [Cache.upload, hf, hl]
  rw [if_pos hz]

theorem upload_miss_success {env : ParseEnv T} {c c1 : Cache T} {handle : Handle}
    {size : ℚ × ℚ} {scale : ℚ} {d : Device} {tree : T}
    (hf : AList.find? c.rasterized
      (handle.id, targetDim scale size.1, targetDim scale size.2) = none)
    (hl : Cache.load env c handle = (Svg.Loaded tree, c1))
    (hw : targetDim scale size.1 ≠ 0) (hh : targetDim scale size.2 ≠ 0) :
    Cache.upload env c handle size scale d =
      (some d.nextBindGroup,
       { c1 with
           rasterized := AList.insert c1.rasterized
             (handle.id, targetDim scale size.1, targetDim scale size.2)
             d.nextBindGroup,
           svg_hits := SList.insert c1.svg_hits handle.id,
           rasterized_hits := SList.insert c1.rasterized_hits
             (handle.id, targetDim scale size.1, targetDim scale size.2) },
       ⟨d.nextBindGroup + 1⟩) := by
  simp only [Cache.upload, hf, hl]
  rw [if_neg (by tauto)]
  simp [Device.createBindGroup]

section UploadDerived

variable {T : Type u} {env : ParseEnv T} {c : Cache T} {handle : Handle}
variable {size : ℚ × ℚ} {scale : ℚ} {d : Device}

theorem upload_rasterized_find_mono {k : Nat × Nat × Nat} {bg : Nat}
    (h : AList.find? c.rasterized k = some bg) :
    AList.find? (Cache.upload env c handle size scale d).2.1.rasterized k = some bg := by
  cases hf : AList.find? c.rasterized
      (handle.id, targetDim scale size.1, targetDim scale size.2) with
  | some bg2 => rw [upload_hit hf]; exact h
  | none =>
    rcases hl : Cache.load env c handle with ⟨svg, c1⟩
    have hc1 : c1.rasterized = c.rasterized := by
      have := (load_rasterized env c handle).1
      rw [hl] at this
      exact this
    cases svg with
    | NotFound => rw [upload_miss_notFound hf hl]; rw [hc1]; exact h
    | Loaded tree =>
      by_cases hz : targetDim scale size.1 = 0 ∨ targetDim scale size.2 = 0
      · rw [upload_miss_zero hf hl hz]; rw [hc1]; exact h
      · push_neg at hz
        rw [upload_miss_success hf hl hz.1 hz.2]
        have hne : k ≠ (handle.id, targetDim scale size.1, targetDim scale size.2) := by
          rintro rfl
          rw [h] at hf
          cases hf
        show AList.find? (AList.insert c1.rasterized _ _) k = some bg
        rw [AList.find?_insert_ne _ _ hne, hc1]
        exact h

theorem upload_svg_hits_mono {i : Nat} (h : i ∈ c.svg_hits) :
    i ∈ (Cache.upload env c handle size scale d).2.1.svg_hits := by
  cases hf : AList.find? c.rasterized
      (handle.id, targetDim scale size.1, targetDim scale size.2) with
  | some bg2 => rw [upload_hit hf]; exact SList.mem_insert_of_mem _ _ h
  | none =>
    rcases hl : Cache.load env c handle with ⟨svg, c1⟩
    have hc1 : c1.svg_hits = c.svg_hits := by
      have := (load_rasterized env c handle).2.1
      rw [hl] at this
      exact this
    cases svg with
    | NotFound => rw [upload_miss_notFound hf hl]; rw [hc1]; exact h
    | Loaded tree =>
      by_cases hz : targetDim scale size.1 = 0 ∨ targetDim scale size.2 = 0
      · rw [upload_miss_zero hf hl hz]; rw [hc1]; exact h
      · push_neg at hz
        rw [upload_miss_success hf hl hz.1 hz.2]
        exact SList.mem_insert_of_mem _ _ (hc1 ▸ h)

theorem upload_rasterized_hits_mono {k : Nat × Nat × Nat} (h : k ∈ c.rasterized_hits) :
    k ∈ (Cache.upload env c handle size scale d).2.1.rasterized_hits := by
  cases hf : AList.find? c.rasterized
      (handle.id, targetDim scale size.1, targetDim scale size.2) with
  | some bg2 => rw [upload_hit hf]; exact SList.mem_insert_of_mem _ _ h
  | none =>
    rcases hl : Cache.load env c handle with ⟨svg, c1⟩
    have hc1 : c1.rasterized_hits = c.rasterized_hits := by
      have := (load_rasterized env c handle).2.2
      rw [hl] at this
      exact this
    cases svg with
    | NotFound => rw [upload_miss_notFound hf hl]; rw [hc1]; exact h
    | Loaded tree =>
      by_cases hz : targetDim scale size.1 = 0 ∨ targetDim scale size.2 = 0
      · rw [upload_miss_zero hf hl hz]; rw [hc1]; exact h
      · push_neg at hz
        rw [upload_miss_success hf hl hz.1 hz.2]
        exact SList.mem_insert_of_mem _ _ (hc1 ▸ h)

theorem upload_rasterized_keys_mono {a : Nat × Nat × Nat}
    (h : a ∈ AList.keys c.rasterized) :
    a ∈ AList.keys (Cache.upload env c handle size scale d).2.1.rasterized := by
  cases hf : AList.find? c.rasterized
      (handle.id, targetDim scale size.1, targetDim scale size.2) with
  | some bg2 => rw [upload_hit hf]; exact h
  | none =>
    rcases hl : Cache.load env c handle with ⟨svg, c1⟩
    have hc1 : c1.rasterized = c.rasterized := by
      have := (load_rasterized env c handle).1
      rw [hl] at this
      exact this
    cases svg with
    | NotFound => rw [upload_miss_notFound hf hl]; rw [hc1]; exact h
    | Loaded tree =>
      by_cases hz : targetDim scale size.1 = 0 ∨ targetDim scale size.2 = 0
      · rw [upload_miss_zero hf hl hz]; rw [hc1]; exact h
      · push_neg at hz
        rw [upload_miss_success hf hl hz.1 hz.2]
        show a ∈ AList.keys (AList.insert c1.rasterized _ _)
        rw [AList.mem_keys_insert]
        exact Or.inr (hc1 ▸ h)

theorem upload_isSome_spec {bg : Nat}
    (h : (Cache.upload env c handle size scale d).1 = some bg) :
    AList.find? (Cache.upload env c handle size scale d).2.1.rasterized
        (handle.id, targetDim scale size.1, targetDim scale size.2) = some bg ∧
      (handle.id, targetDim scale size.1, targetDim scale size.2) ∈
        (Cache.upload env c handle size scale d).2.1.rasterized_hits ∧
      handle.id ∈ (Cache.upload env c handle size scale d).2.1.svg_hits := by
  cases hf : AList.find? c.rasterized
      (handle.id, targetDim scale size.1, targetDim scale size.2) with
  | some bg2 =>
    rw [upload_hit hf] at h ⊢
    cases h
    exact ⟨hf, SList.mem_insert_self .., SList.mem_insert_self ..⟩
  | none =>
    rcases hl : Cache.load env c handle with ⟨svg, c1⟩
    cases svg with
    | NotFound => rw [upload_miss_notFound hf hl] at h; cases h
    | Loaded tree =>
      by_cases hz : targetDim scale size.1 = 0 ∨ targetDim scale size.2 = 0
      · rw [upload_miss_zero hf hl hz] at h; cases h
      · push_neg at hz
        rw [upload_miss_success hf hl hz.1 hz.2] at h ⊢
        cases h
        exact ⟨AList.find?_insert_self .., SList.mem_insert_self ..,
          SList.mem_insert_self ..⟩

theorem upload_none_state
    (h : (Cache.upload env c handle size scale d).1 = none) :
    (Cache.upload env c handle size scale d).2.1.rasterized = c.rasterized ∧
      (Cache.upload env c handle size scale d).2.1.svg_hits = c.svg_hits ∧
      (Cache.upload env c handle size scale d).2.1.rasterized_hits = c.rasterized_hits ∧
      (Cache.upload env c handle size scale d).2.2 = d := by
  cases hf : AList.find? c.rasterized
      (handle.id, targetDim scale size.1, targetDim scale size.2) with
  | some bg2 => rw [upload_hit hf] at h; cases h
  | none =>
    rcases hl : Cache.load env c handle with ⟨svg, c1⟩
    have hc1 := load_rasterized env c handle
    rw [hl] at hc1
    cases svg with
    | NotFound =>
      rw [upload_miss_notFound hf hl]
      exact ⟨hc1.1, hc1.2.1, hc1.2.2, rfl⟩
    | Loaded tree =>
      by_cases hz : targetDim scale size.1 = 0 ∨ targetDim scale size.2 = 0
      · rw [upload_miss_zero hf hl hz]
        exact ⟨hc1.1, hc1.2.1, hc1.2.2, rfl⟩
      · push_neg at hz
        rw [upload_miss_success hf hl hz.1 hz.2] at h
        cases h

theorem upload_rasterized_hits_sub {a : Nat × Nat × Nat}
    (h : a ∈ (Cache.upload env c handle size scale d).2.1.rasterized_hits) :
    a = (handle.id, targetDim scale size.1, targetDim scale size.2) ∨
      a ∈ c.rasterized_hits := by
  cases hf : AList.find? c.rasterized
      (handle.id, targetDim scale size.1, targetDim scale size.2) with
  | some bg2 =>
    rw [upload_hit hf] at h
    exact (SList.mem_insert ..).mp h
  | none =>
    rcases hl : Cache.load env c handle with ⟨svg, c1⟩
    have hc1 := load_rasterized env c handle
    rw [hl] at hc1
    cases svg with
    | NotFound =>
      rw [upload_miss_notFound hf hl] at h
      exact Or.inr (hc1.2.2 ▸ h)
    | Loaded tree =>
      by_cases hz : targetDim scale size.1 = 0 ∨ targetDim scale size.2 = 0
      · rw [upload_miss_zero hf hl hz] at h
        exact Or.inr (hc1.2.2 ▸ h)
      · push_neg at hz
        rw [upload_miss_success hf hl hz.1 hz.2] at h
        rcases (SList.mem_insert ..).mp h with h | h
        · exact Or.inl h
        · exact Or.inr (hc1.2.2 ▸ h)

theorem upload_svg_hits_sub {i : Nat}
    (h : i ∈ (Cache.upload env c handle size scale d).2.1.svg_hits) :
    i = handle.id ∨ i ∈ c.svg_hits := by
  cases hf : AList.find? c.rasterized
      (handle.id, targetDim scale size.1, targetDim scale size.2) with
  | some bg2 =>
    rw [upload_hit hf] at h
    exact (SList.mem_insert ..).mp h
  | none =>
    rcases hl : Cache.load env c handle with ⟨svg, c1⟩
    have hc1 := load_rasterized env c handle
    rw [hl] at hc1
    cases svg with
    | NotFound =>
      rw [upload_miss_notFound hf hl] at h
      exact Or.inr (hc1.2.1 ▸ h)
    | Loaded tree =>
      by_cases hz : targetDim scale size.1 = 0 ∨ targetDim scale size.2 = 0
      · rw [upload_miss_zero hf hl hz] at h
        exact Or.inr (hc1.2.1 ▸ h)
      · push_neg at hz
        rw [upload_miss_success hf hl hz.1 hz.2] at h
        rcases (SList.mem_insert ..).mp h with h | h
        · exact Or.inl h
        · exact Or.inr (hc1.2.1 ▸ h)

theorem upload_rasterized_keys_sub {a : Nat × Nat × Nat}
    (h : a ∈ AList.keys (Cache.upload env c handle size scale d).2.1.rasterized) :
    a = (handle.id, targetDim scale size.1, targetDim scale size.2) ∨
      a ∈ AList.keys c.rasterized := by
  cases hf : AList.find? c.rasterized
      (handle.id, targetDim scale size.1, targetDim scale size.2) with
  | some bg2 =>
    rw [upload_hit hf] at h
    exact Or.inr h
  | none =>
    rcases hl : Cache.load env c handle with ⟨svg, c1⟩
    have hc1 := load_rasterized env c handle
    rw [hl] at hc1
    cases svg with
    | NotFound =>
      rw [upload_miss_notFound hf hl] at h
      exact Or.inr (hc1.1 ▸ h)
    | Loaded tree =>
      by_cases hz : targetDim scale size.1 = 0 ∨ targetDim scale size.2 = 0
      · rw [upload_miss_zero hf hl hz] at h
        exact Or.inr (hc1.1 ▸ h)
      · push_neg at hz
        rw [upload_miss_success hf hl hz.1 hz.2] at h
        have h2 := (AList.mem_keys_insert ..).mp h
        rcases h2 with h2 | h2
        · exact Or.inl h2
        · exact Or.inr (hc1.1 ▸ h2)

theorem upload_svgs_find_mono {i : Nat} {s : Svg T}
    (h : AList.find? c.svgs i = some s) :
    AList.find? (Cache.upload env c handle size scale d).2.1.svgs i = some s := by
  cases hf : AList.find? c.rasterized
      (handle.id, targetDim scale size.1, targetDim scale size.2) with
  | some bg2 => rw [upload_hit hf]; exact h
  | none =>
    rcases hl : Cache.load env c handle with ⟨svg, c1⟩
    have hm := @load_svgs_mono T env c handle i s h
    rw [hl] at hm
    cases svg with
    | NotFound => rw [upload_miss_notFound hf hl]; exact hm
    | Loaded tree =>
      by_cases hz : targetDim scale size.1 = 0 ∨ targetDim scale size.2 = 0
      · rw [upload_miss_zero hf hl hz]; exact hm
      · push_neg at hz
        rw [upload_miss_success hf hl hz.1 hz.2]
        exact hm

theorem upload_svgs_keys_mono {i : Nat}
    (h : i ∈ AList.keys c.svgs) :
    i ∈ AList.keys (Cache.upload env c handle size scale d).2.1.svgs := by
  rcases hs : AList.find? c.svgs i with _ | s
  · exfalso
    have h2 := (AList.find?_isSome_iff_mem_keys c.svgs i).mpr h
    rw [hs] at h2
    simp at h2
  · exact AList.mem_keys_of_find?_eq_some (upload_svgs_find_mono hs)

theorem upload_svgs_keys_sub {i : Nat}
    (h : i ∈ AList.keys (Cache.upload env c handle size scale d).2.1.svgs) :
    i = handle.id ∨ i ∈ AList.keys c.svgs := by
  cases hf : AList.find? c.rasterized
      (handle.id, targetDim scale size.1, targetDim scale size.2) with
  | some bg2 => rw [upload_hit hf] at h; exact Or.inr h
  | none =>
    rcases hl : Cache.load env c handle with ⟨svg, c1⟩
    have hk := load_mem_keys env c handle i
    rw [hl] at hk
    cases svg with
    | NotFound =>
      rw [upload_miss_notFound hf hl] at h
      exact hk.mp h
    | Loaded tree =>
      by_cases hz : targetDim scale size.1 = 0 ∨ targetDim scale size.2 = 0
      · rw [upload_miss_zero hf hl hz] at h
        exact hk.mp h
      · push_neg at hz
        rw [upload_miss_success hf hl hz.1 hz.2] at h
        exact hk.mp h

end UploadDerived

section TrimDerived

variable {T : Type u}

theorem trim_find_svgs (c : Cache T) (i : Nat) :
    AList.find? c.trim.svgs i =
      if i ∈ c.svg_hits then AList.find? c.svgs i else none := by
  simp only [Cache.trim]
  rw [AList.find?_retain]
  by_cases hi : i ∈ c.svg_hits <;> simp [hi]

theorem trim_find_rasterized (c : Cache T) (a : Nat × Nat × Nat) :
    AList.find? c.trim.rasterized a =
      if a ∈ c.rasterized_hits then AList.find? c.rasterized a else none := by
  simp only [Cache.trim]
  rw [AList.find?_retain]
  by_cases ha : a ∈ c.rasterized_hits <;> simp [ha]

theorem trim_mem_keys_svgs (c : Cache T) (i : Nat) :
    i ∈ AList.keys c.trim.svgs ↔ i ∈ AList.keys c.svgs ∧ i ∈ c.svg_hits := by
  simp only [Cache.trim]
  rw [AList.mem_keys_retain]
  simp

theorem trim_mem_keys_rasterized (c : Cache T) (a : Nat × Nat × Nat) :
    a ∈ AList.keys c.trim.rasterized ↔
      a ∈ AList.keys c.rasterized ∧ a ∈ c.rasterized_hits := by
  simp only [Cache.trim]
  rw [AList.mem_keys_retain]
  simp

theorem trim_hits (c : Cache T) :
    c.trim.svg_hits = [] ∧ c.trim.rasterized_hits = [] :=
  ⟨rfl, rfl⟩

end TrimDerived

end Cache

/-! ## Lemmas about sequences of uploads -/

section RunUploads

variable {T : Type u} {env : ParseEnv T}

theorem runUploads_nil (c : Cache T) (d : Device) :
    runUploads env [] c d = ([], c, d) := rfl

theorem runUploads_cons (a : UploadCall) (rest : List UploadCall)
    (c : Cache T) (d : Device) :
    runUploads env (a :: rest) c d =
      (((Cache.upload env c a.handle (a.w, a.h) a.scale d).1 ::
          (runUploads env rest (Cache.upload env c a.handle (a.w, a.h) a.scale d).2.1
            (Cache.upload env c a.handle (a.w, a.h) a.scale d).2.2).1),
       (runUploads env rest (Cache.upload env c a.handle (a.w, a.h) a.scale d).2.1
          (Cache.upload env c a.handle (a.w, a.h) a.scale d).2.2).2) := rfl

theorem runUploads_rasterized_find_mono (l : List UploadCall) :
    ∀ (c : Cache T) (d : Device) {k : Nat × Nat × Nat} {bg : Nat},
      AList.find? c.rasterized k = some bg →
      AList.find? (runUploads env l c d).2.1.rasterized k = some bg := by
  induction l with
  | nil => intro c d k bg h; exact h
  | cons a rest ih =>
    intro c d k bg h
    rw [runUploads_cons]
    exact ih _ _ (Cache.upload_rasterized_find_mono h)

theorem runUploads_rasterized_keys_mono (l : List UploadCall) :
    ∀ (c : Cache T) (d : Device) {k : Nat × Nat × Nat},
      k ∈ AList.keys c.rasterized →
      k ∈ AList.keys (runUploads env l c d).2.1.rasterized := by
  induction l with
  | nil => intro c d k h; exact h
  | cons a rest ih =>
    intro c d k h
    rw [runUploads_cons]
    exact ih _ _ (Cache.upload_rasterized_keys_mono h)

theorem runUploads_rasterized_hits_mono (l : List UploadCall) :
    ∀ (c : Cache T) (d : Device) {k : Nat × Nat × Nat},
      k ∈ c.rasterized_hits →
      k ∈ (runUploads env l c d).2.1.rasterized_hits := by
  induction l with
  | nil => intro c d k h; exact h
  | cons a rest ih =>
    intro c d k h
    rw [runUploads_cons]
    exact ih _ _ (Cache.upload_rasterized_hits_mono h)

theorem runUploads_svg_hits_mono (l : List UploadCall) :
    ∀ (c : Cache T) (d : Device) {i : Nat},
      i ∈ c.svg_hits →
      i ∈ (runUploads env l c d).2.1.svg_hits := by
  induction l with
  | nil => intro c d i h; exact h
  | cons a rest ih =>
    intro c d i h
    rw [runUploads_cons]
    exact ih _ _ (Cache.upload_svg_hits_mono h)

theorem runUploads_rasterized_hits_sub (l : List UploadCall) :
    ∀ (c : Cache T) (d : Device) {a : Nat × Nat × Nat},
      a ∈ (runUploads env l c d).2.1.rasterized_hits →
      (∃ b ∈ l, b.triple = a) ∨ a ∈ c.rasterized_hits := by
  induction l with
  | nil => intro c d a h; exact Or.inr h
  | cons b rest ih =>
    intro c d a h
    rw [runUploads_cons] at h
    rcases ih _ _ h with ⟨b2, hb2, ht⟩ | h2
    · exact Or.inl ⟨b2, List.mem_cons_of_mem _ hb2, ht⟩
    · rcases Cache.upload_rasterized_hits_sub h2 with h3 | h3
      · exact Or.inl ⟨b, List.mem_cons_self .., h3.symm⟩
      · exact Or.inr h3

theorem runUploads_svg_hits_sub (l : List UploadCall) :
    ∀ (c : Cache T) (d : Device) {i : Nat},
      i ∈ (runUploads env l c d).2.1.svg_hits →
      (∃ b ∈ l, b.handle.id = i) ∨ i ∈ c.svg_hits := by
  induction l with
  | nil => intro c d i h; exact Or.inr h
  | cons b rest ih =>
    intro c d i h
    rw [runUploads_cons] at h
    rcases ih _ _ h with ⟨b2, hb2, ht⟩ | h2
    · exact Or.inl ⟨b2, List.mem_cons_of_mem _ hb2, ht⟩
    · rcases Cache.upload_svg_hits_sub h2 with h3 | h3
      · exact Or.inl ⟨b, List.mem_cons_self .., h3.symm⟩
      · exact Or.inr h3

theorem runUploads_success_present (l : List UploadCall) :
    ∀ (c : Cache T) (d : Device),
      ∀ p ∈ List.zip l (runUploads env l c d).1, p.2.isSome = true →
        p.1.triple ∈ (runUploads env l c d).2.1.rasterized_hits ∧
          p.1.triple ∈ AList.keys (runUploads env l c d).2.1.rasterized := by
  induction l with
  | nil =>
    intro c d p hp
    simp [runUploads_nil] at hp
  | cons a rest ih =>
    intro c d p hp hs
    rw [runUploads_cons] at hp ⊢
    rw [List.zip_cons_cons] at hp
    rcases List.mem_cons.mp hp with rfl | hp2
    · rcases hb : (Cache.upload env c a.handle (a.w, a.h) a.scale d).1 with _ | bg
      · rw [hb] at hs; cases hs
      · have hspec := Cache.upload_isSome_spec hb
        constructor
        · exact runUploads_rasterized_hits_mono rest _ _ hspec.2.1
        · exact runUploads_rasterized_keys_mono rest _ _
            (AList.mem_keys_of_find?_eq_some hspec.1)
    · exact ih _ _ p hp2 hs

theorem runUploads_all_hit (l : List UploadCall) :
    ∀ (c : Cache T) (d : Device) {k : Nat × Nat × Nat} {bg : Nat},
      (∀ a ∈ l, a.triple = k) →
      AList.find? c.rasterized k = some bg →
      (runUploads env l c d).1 = l.map (fun _ => some bg) ∧
        (runUploads env l c d).2.1.svgs = c.svgs ∧
        (runUploads env l c d).2.1.rasterized = c.rasterized ∧
        (runUploads env l c d).2.2 = d := by
  induction l with
  | nil =>
    intro c d k bg _ _
    exact ⟨rfl, rfl, rfl, rfl⟩
  | cons a rest ih =>
    intro c d k bg hall hf
    have ha : a.triple = k := hall a (List.mem_cons_self ..)
    have hfk : AList.find? c.rasterized
        (a.handle.id, targetDim a.scale a.w, targetDim a.scale a.h) = some bg := by
      rw [show (a.handle.id, targetDim a.scale a.w, targetDim a.scale a.h) =
        a.triple from rfl, ha]
      exact hf
    rw [runUploads_cons, @Cache.upload_hit T env c a.handle (a.w, a.h) a.scale d bg hfk]
    have h2 := ih
      { c with
          svg_hits := SList.insert c.svg_hits a.handle.id,
          rasterized_hits := SList.insert c.rasterized_hits
            (a.handle.id, targetDim a.scale a.w, targetDim a.scale a.h) } d
      (fun b hb => hall b (List.mem_cons_of_mem _ hb)) hf
    exact ⟨by rw [List.map_cons, ← h2.1], h2.2.1, h2.2.2.1, h2.2.2.2⟩

theorem Cache.upload_svgs_shape (env : ParseEnv T) (c : Cache T) (handle : Handle)
    (size : ℚ × ℚ) (scale : ℚ) (d : Device) :
    (Cache.upload env c handle size scale d).2.1.svgs = c.svgs ∨
      ∃ s, (Cache.upload env c handle size scale d).2.1.svgs =
        AList.insert c.svgs handle.id s := by
  cases hf : AList.find? c.rasterized
      (handle.id, targetDim scale size.1, targetDim scale size.2) with
  | some bg2 => rw [Cache.upload_hit hf]; exact Or.inl rfl
  | none =>
    rcases hl : Cache.load env c handle with ⟨svg, c1⟩
    have hshape := Cache.load_shape env c handle
    rw [hl] at hshape
    dsimp only at hshape
    have hc1 : c1.svgs = c.svgs ∨
        ∃ s, c1.svgs = AList.insert c.svgs handle.id s := by
      rcases hshape with hs | hs
      · exact Or.inl (by rw [hs])
      · exact Or.inr ⟨svg, by rw [hs]⟩
    cases svg with
    | NotFound => rw [Cache.upload_miss_notFound hf hl]; exact hc1
    | Loaded tree =>
      by_cases hz : targetDim scale size.1 = 0 ∨ targetDim scale size.2 = 0
      · rw [Cache.upload_miss_zero hf hl hz]; exact hc1
      · push_neg at hz
        rw [Cache.upload_miss_success hf hl hz.1 hz.2]
        exact hc1

end RunUploads

section Growth

variable {T : Type u} {env : ParseEnv T}

theorem svgBudget_upload {c : Cache T} {handle : Handle} {size : ℚ × ℚ}
    {scale : ℚ} {d : Device} {i : Nat} (hid : handle.id = i) :
    svgBudget (Cache.upload env c handle size scale d).2.1 i ≤ svgBudget c i := by
  subst hid
  rcases Cache.upload_svgs_shape env c handle size scale d with hs | ⟨s, hs⟩
  · rw [svgBudget, svgBudget, hs]
  · rw [svgBudget, svgBudget, hs]
    have hmem : handle.id ∈ AList.keys (AList.insert c.svgs handle.id s) :=
      (AList.mem_keys_insert ..).mpr (Or.inl rfl)
    by_cases hm : handle.id ∈ AList.keys c.svgs
    · rw [AList.length_insert_of_mem _ _ hm]
      simp [hmem, hm]
    · have h1 := AList.length_insert_le c.svgs handle.id s
      simp only [hmem, if_pos, if_neg hm]
      omega

theorem runUploads_svgBudget (env : ParseEnv T) (l : List UploadCall) (i : Nat)
    (hall : ∀ a ∈ l, a.handle.id = i) :
    ∀ (c : Cache T) (d : Device),
      svgBudget (runUploads env l c d).2.1 i ≤ svgBudget c i := by
  induction l with
  | nil => intro c d; exact le_refl _
  | cons a rest ih =>
    intro c d
    rw [runUploads_cons]
    exact le_trans
      (ih (fun b hb => hall b (List.mem_cons_of_mem _ hb)) _ _)
      (svgBudget_upload (hall a (List.mem_cons_self ..)))

theorem runUploads_svgs_length (l : List UploadCall) (i : Nat)
    (hall : ∀ a ∈ l, a.handle.id = i) (c : Cache T) (d : Device) :
    (runUploads env l c d).2.1.svgs.length ≤ c.svgs.length + 1 := by
  have h1 := runUploads_svgBudget env l i hall c d
  rw [svgBudget, svgBudget] at h1
  by_cases hm : i ∈ AList.keys (runUploads env l c d).2.1.svgs <;>
    by_cases hm2 : i ∈ AList.keys c.svgs <;>
    simp only [hm, hm2, if_pos, if_neg, if_true, if_false] at h1 <;>
    omega

theorem runUploads_svgs_keys_sub (l : List UploadCall) :
    ∀ (c : Cache T) (d : Device) {j : Nat},
      j ∈ AList.keys (runUploads env l c d).2.1.svgs →
      (∃ b ∈ l, b.handle.id = j) ∨ j ∈ AList.keys c.svgs := by
  induction l with
  | nil => intro c d j h; exact Or.inr h
  | cons b rest ih =>
    intro c d j h
    rw [runUploads_cons] at h
    rcases ih _ _ h with ⟨b2, hb2, ht⟩ | h2
    · exact Or.inl ⟨b2, List.mem_cons_of_mem _ hb2, ht⟩
    · rcases Cache.upload_svgs_keys_sub h2 with h3 | h3
      · exact Or.inl ⟨b, List.mem_cons_self .., h3.symm⟩
      · exact Or.inr h3

end Growth

/-! ## Invariant preservation -/

section Invariants

variable {T : Type u}

theorem coupled_new : Coupled (Cache.new : Cache T) := by
  constructor
  · intro k hk
    simp [Cache.new, AList.keys] at hk
  · intro k hk
    simp [Cache.new] at hk

theorem coupled_load (env : ParseEnv T) (c : Cache T) (handle : Handle)
    (hc : Coupled c) : Coupled (Cache.load env c handle).2 := by
  constructor
  · intro k hk
    rw [(Cache.load_rasterized env c handle).1] at hk
    rw [Cache.load_mem_keys]
    exact Or.inr (hc.1 k hk)
  · intro k hk
    rw [(Cache.load_rasterized env c handle).2.2] at hk
    rw [(Cache.load_rasterized env c handle).2.1]
    exact hc.2 k hk

theorem coupled_upload (env : ParseEnv T) (c : Cache T) (handle : Handle)
    (size : ℚ × ℚ) (scale : ℚ) (d : Device) (hc : Coupled c) :
    Coupled (Cache.upload env c handle size scale d).2.1 := by
  cases hf : AList.find? c.rasterized
      (handle.id, targetDim scale size.1, targetDim scale size.2) with
  | some bg2 =>
    rw [Cache.upload_hit hf]
    constructor
    · intro k hk
      exact hc.1 k hk
    · intro k hk
      rcases (SList.mem_insert ..).mp hk with rfl | hk2
      · exact SList.mem_insert_self ..
      · exact SList.mem_insert_of_mem _ _ (hc.2 k hk2)
  | none =>
    rcases hl : Cache.load env c handle with ⟨svg, c1⟩
    have hld := Cache.load_rasterized env c handle
    rw [hl] at hld
    have hkeys := fun i => Cache.load_mem_keys env c handle i
    have hc1 : Coupled c1 := by
      have := coupled_load env c handle hc
      rw [hl] at this
      exact this
    cases svg with
    | NotFound =>
      rw [Cache.upload_miss_notFound hf hl]
      exact hc1
    | Loaded tree =>
      by_cases hz : targetDim scale size.1 = 0 ∨ targetDim scale size.2 = 0
      · rw [Cache.upload_miss_zero hf hl hz]
        exact hc1
      · push_neg at hz
        rw [Cache.upload_miss_success hf hl hz.1 hz.2]
        have hself : AList.find? c1.svgs handle.id = some (Svg.Loaded tree) := by
          have := Cache.load_find_self env c handle
          rw [hl] at this
          exact this
        constructor
        · intro k hk
          rcases (AList.mem_keys_insert ..).mp hk with rfl | hk2
          · exact AList.mem_keys_of_find?_eq_some hself
          · exact hc1.1 k hk2
        · intro k hk
          rcases (SList.mem_insert ..).mp hk with rfl | hk2
          · exact SList.mem_insert_self ..
          · exact SList.mem_insert_of_mem _ _ (hc1.2 k hk2)

theorem coupled_trim (c : Cache T) (hc : Coupled c) : Coupled c.trim := by
  constructor
  · intro k hk
    rw [Cache.trim_mem_keys_rasterized] at hk
    rw [Cache.trim_mem_keys_svgs]
    exact ⟨hc.1 k hk.1, hc.2 k hk.2⟩
  · intro k hk
    simp [Cache.trim] at hk

theorem coupled_apply (op : Op T) (s : Cache T × Device) (hc : Coupled s.1) :
    Coupled (Op.apply op s).1 := by
  rcases s with ⟨c, d⟩
  cases op with
  | load env handle => exact coupled_load env c handle hc
  | upload env a => exact coupled_upload env c a.handle (a.w, a.h) a.scale d hc
  | trim => exact coupled_trim c hc

theorem coupled_runOps (ops : List (Op T)) :
    ∀ s : Cache T × Device, Coupled s.1 → Coupled (runOps ops s).1 := by
  induction ops with
  | nil => intro s hc; exact hc
  | cons op rest ih =>
    intro s hc
    exact ih _ (coupled_apply op s hc)

theorem good_new : GoodRasterized (Cache.new : Cache T) := by
  intro k hk
  simp [Cache.new, AList.keys] at hk

theorem good_load (env : ParseEnv T) (c : Cache T) (handle : Handle)
    (hg : GoodRasterized c) : GoodRasterized (Cache.load env c handle).2 := by
  intro k hk
  rw [(Cache.load_rasterized env c handle).1] at hk
  obtain ⟨hw, hh, t, ht⟩ := hg k hk
  exact ⟨hw, hh, t, Cache.load_svgs_mono ht⟩

theorem good_upload (env : ParseEnv T) (c : Cache T) (handle : Handle)
    (size : ℚ × ℚ) (scale : ℚ) (d : Device) (hg : GoodRasterized c) :
    GoodRasterized (Cache.upload env c handle size scale d).2.1 := by
  cases hf : AList.find? c.rasterized
      (handle.id, targetDim scale size.1, targetDim scale size.2) with
  | some bg2 =>
    rw [Cache.upload_hit hf]
    intro k hk
    exact hg k hk
  | none =>
    rcases hl : Cache.load env c handle with ⟨svg, c1⟩
    have hld := Cache.load_rasterized env c handle
    rw [hl] at hld
    have hg1 : GoodRasterized c1 := by
      have := good_load env c handle hg
      rw [hl] at this
      exact this
    cases svg with
    | NotFound =>
      rw [Cache.upload_miss_notFound hf hl]
      exact hg1
    | Loaded tree =>
      by_cases hz : targetDim scale size.1 = 0 ∨ targetDim scale size.2 = 0
      · rw [Cache.upload_miss_zero hf hl hz]
        exact hg1
      · push_neg at hz
        rw [Cache.upload_miss_success hf hl hz.1 hz.2]
        have hself : AList.find? c1.svgs handle.id = some (Svg.Loaded tree) := by
          have := Cache.load_find_self env c handle
          rw [hl] at this
          exact this
        intro k hk
        rcases (AList.mem_keys_insert ..).mp hk with rfl | hk2
        · exact ⟨hz.1, hz.2, tree, hself⟩
        · exact hg1 k hk2

theorem good_trim (c : Cache T) (hc : Coupled c) (hg : GoodRasterized c) :
    GoodRasterized c.trim := by
  intro k hk
  rw [Cache.trim_mem_keys_rasterized] at hk
  obtain ⟨hw, hh, t, ht⟩ := hg k hk.1
  refine ⟨hw, hh, t, ?_⟩
  rw [Cache.trim_find_svgs, if_pos (hc.2 k hk.2)]
  exact ht

theorem good_apply (op : Op T) (s : Cache T × Device)
    (hc : Coupled s.1) (hg : GoodRasterized s.1) :
    GoodRasterized (Op.apply op s).1 := by
  rcases s with ⟨c, d⟩
  cases op with
  | load env handle => exact good_load env c handle hg
  | upload env a => exact good_upload env c a.handle (a.w, a.h) a.scale d hg
  | trim => exact good_trim c hc hg

theorem good_runOps (ops : List (Op T)) :
    ∀ s : Cache T × Device, Coupled s.1 → GoodRasterized s.1 →
      GoodRasterized (runOps ops s).1 := by
  induction ops with
  | nil => intro s _ hg; exact hg
  | cons op rest ih =>
    intro s hc hg
    exact ih _ (coupled_apply op s hc) (good_apply op s hc hg)

end Invariants

/-- Characterization of `upload` returning `None`, on any cache state
whose rasterized entries came from successful rasterizations (true of
every reachable state): `upload` yields nothing exactly when a target
dimension rounds to zero or the document loads as `NotFound`. -/
theorem Cache.upload_none_iff {T : Type u} (env : ParseEnv T) (c : Cache T)
    (handle : Handle) (size : ℚ × ℚ) (scale : ℚ) (d : Device)
    (hg : GoodRasterized c) :
    (Cache.upload env c handle size scale d).1 = none ↔
      targetDim scale size.1 = 0 ∨ targetDim scale size.2 = 0 ∨
        (Cache.load env c handle).1 = Svg.NotFound := by
  cases hf : AList.find? c.rasterized
      (handle.id, targetDim scale size.1, targetDim scale size.2) with
  | some bg =>
    rw [Cache.upload_hit hf]
    have hk := AList.mem_keys_of_find?_eq_some hf
    obtain ⟨hw, hh, t, ht⟩ := hg _ hk
    rw [Cache.load_of_find ht]
    constructor
    · intro h; cases h
    · rintro (h | h | h)
      · exact absurd h hw
      · exact absurd h hh
      · cases h
  | none =>
    rcases hl : Cache.load env c handle with ⟨svg, c1⟩
    cases svg with
    | NotFound =>
      rw [Cache.upload_miss_notFound hf hl]
      simp
    | Loaded tree =>
      by_cases hz : targetDim scale size.1 = 0 ∨ targetDim scale size.2 = 0
      · rw [Cache.upload_miss_zero hf hl hz]
        simp only [true_iff]
        rcases hz with hz | hz
        · exact Or.inl hz
        · exact Or.inr (Or.inl hz)
      · push_neg at hz
        rw [Cache.upload_miss_success hf hl hz.1 hz.2]
        simp [hz.1, hz.2]

/-! ## Concrete evaluations -/

theorem targetDim_two_100 : targetDim 2 100 = 200 := by
  norm_num [targetDim]
  decide

theorem targetDim_one_10 : targetDim 1 10 = 10 := by
  norm_num [targetDim]
  decide

theorem targetDim_one_0 : targetDim 1 0 = 0 := by
  norm_num [targetDim]

theorem tripleA : callA.triple = (7, 200, 200) := by
  simp [callA, UploadCall.triple, targetDim_two_100]

theorem tripleFail : callFail.triple = (7, 10, 10) := by
  simp [callFail, UploadCall.triple, targetDim_one_10]

theorem uploadA :
    Cache.upload envOk (Cache.new : Cache Nat) ⟨7, 3⟩ (100, 100) 2 ⟨0⟩ =
      (some 0, cacheA, ⟨1⟩) := by
  have hf : AList.find? (Cache.new : Cache Nat).rasterized
      (7, targetDim 2 100, targetDim 2 100) = none := rfl
  have hl : Cache.load envOk (Cache.new : Cache Nat) ⟨7, 3⟩ =
      (Svg.Loaded 0, (⟨[(7, Svg.Loaded 0)], [], [], []⟩ : Cache Nat)) :=
    Cache.load_of_miss_parse rfl rfl
  have hw : targetDim 2 100 ≠ 0 := by rw [targetDim_two_100]; decide
  have h := @Cache.upload_miss_success Nat envOk Cache.new
    ⟨[(7, Svg.Loaded 0)], [], [], []⟩ ⟨7, 3⟩ (100, 100) 2 ⟨0⟩ 0 hf hl hw hw
  rw [h, show (⟨7, 3⟩ : Handle).id = 7 from rfl, targetDim_two_100]
  rfl

theorem uploadFailA :
    Cache.upload envFail (Cache.new : Cache Nat) ⟨7, 3⟩ (10, 10) 1 ⟨0⟩ =
      (none, cacheNF, ⟨0⟩) := by
  have hf : AList.find? (Cache.new : Cache Nat).rasterized
      (7, targetDim 1 10, targetDim 1 10) = none := rfl
  have hl : Cache.load envFail (Cache.new : Cache Nat) ⟨7, 3⟩ =
      (Svg.NotFound, cacheNF) :=
    Cache.load_of_miss_fail rfl rfl
  exact Cache.upload_miss_notFound hf hl

theorem runA :
    runUploads envOk [callA] (Cache.new : Cache Nat) ⟨0⟩ =
      ([some 0], cacheA, ⟨1⟩) := by
  rw [runUploads_cons]
  have h : Cache.upload envOk (Cache.new : Cache Nat) callA.handle
      (callA.w, callA.h) callA.scale ⟨0⟩ = (some 0, cacheA, ⟨1⟩) := uploadA
  rw [h]
  rfl

theorem runFailA :
    runUploads envFail [callFail] (Cache.new : Cache Nat) ⟨0⟩ =
      ([none], cacheNF, ⟨0⟩) := by
  rw [runUploads_cons]
  have h : Cache.upload envFail (Cache.new : Cache Nat) callFail.handle
      (callFail.w, callFail.h) callFail.scale ⟨0⟩ = (none, cacheNF, ⟨0⟩) :=
    uploadFailA
  rw [h]
  rfl

/-- The `upload_isSome_spec` restated at the level of an `UploadCall`. -/
theorem uploadCall_isSome_spec {T : Type u} {env : ParseEnv T} {c : Cache T}
    {d : Device} {bg : Nat} (a : UploadCall)
    (h : (Cache.upload env c a.handle (a.w, a.h) a.scale d).1 = some bg) :
    AList.find? (Cache.upload env c a.handle (a.w, a.h) a.scale d).2.1.rasterized
        a.triple = some bg ∧
      a.triple ∈ (Cache.upload env c a.handle (a.w, a.h) a.scale d).2.1.rasterized_hits ∧
      a.handle.id ∈ (Cache.upload env c a.handle (a.w, a.h) a.scale d).2.1.svg_hits :=
  Cache.upload_isSome_spec h

/-! ## The claims -/

/-- Claim C1. For every sequence of `upload` calls resolving to one
`(content_id, width, height)` triple `k`, whose first call succeeds with
bitmap handle `bg`: the first call touches both the content id and the
triple; every subsequent call finds the triple in the rasterized cache
and returns the identical shared bitmap handle `bg` (the same allocation
identifier, i.e. `Rc` pointer equality), while the parsed cache, the
rasterized cache and the device allocation counter stay unchanged (so
nothing is rasterized), and both keys remain touched at the end; and
over any sequence of uploads sharing a content id — including many
distinct sizes — the parsed-document cache grows by at most one entry. -/
theorem upload_same_triple_spec {T : Type u} (env : ParseEnv T) (c : Cache T)
    (d : Device) (a : UploadCall) (rest : List UploadCall)
    (k : Nat × Nat × Nat) (bg : Nat)
    (hall : ∀ b ∈ a :: rest, b.triple = k)
    (hfirst : (Cache.upload env c a.handle (a.w, a.h) a.scale d).1 = some bg) :
    k ∈ (Cache.upload env c a.handle (a.w, a.h) a.scale d).2.1.rasterized_hits ∧
    k.1 ∈ (Cache.upload env c a.handle (a.w, a.h) a.scale d).2.1.svg_hits ∧
    (runUploads env rest (Cache.upload env c a.handle (a.w, a.h) a.scale d).2.1
        (Cache.upload env c a.handle (a.w, a.h) a.scale d).2.2).1 =
      rest.map (fun _ => some bg) ∧
    (runUploads env rest (Cache.upload env c a.handle (a.w, a.h) a.scale d).2.1
        (Cache.upload env c a.handle (a.w, a.h) a.scale d).2.2).2.1.svgs =
      (Cache.upload env c a.handle (a.w, a.h) a.scale d).2.1.svgs ∧
    (runUploads env rest (Cache.upload env c a.handle (a.w, a.h) a.scale d).2.1
        (Cache.upload env c a.handle (a.w, a.h) a.scale d).2.2).2.1.rasterized =
      (Cache.upload env c a.handle (a.w, a.h) a.scale d).2.1.rasterized ∧
    (runUploads env rest (Cache.upload env c a.handle (a.w, a.h) a.scale d).2.1
        (Cache.upload env c a.handle (a.w, a.h) a.scale d).2.2).2.2 =
      (Cache.upload env c a.handle (a.w, a.h) a.scale d).2.2 ∧
    k ∈ (runUploads env rest (Cache.upload env c a.handle (a.w, a.h) a.scale d).2.1
        (Cache.upload env c a.handle (a.w, a.h) a.scale d).2.2).2.1.rasterized_hits ∧
    k.1 ∈ (runUploads env rest (Cache.upload env c a.handle (a.w, a.h) a.scale d).2.1
        (Cache.upload env c a.handle (a.w, a.h) a.scale d).2.2).2.1.svg_hits ∧
    (∀ (calls : List UploadCall) (c0 : Cache T) (d0 : Device) (i : Nat),
      (∀ b ∈ calls, b.handle.id = i) →
      (runUploads env calls c0 d0).2.1.svgs.length ≤ c0.svgs.length + 1) := by
  have ha : a.triple = k := hall a (List.mem_cons_self ..)
  have hspec := uploadCall_isSome_spec a hfirst
  rw [ha] at hspec
  have h1 : k.1 = a.handle.id := by
    rw [← ha]
    rfl
  have hrest := @runUploads_all_hit T env rest
    (Cache.upload env c a.handle (a.w, a.h) a.scale d).2.1
    (Cache.upload env c a.handle (a.w, a.h) a.scale d).2.2 k bg
    (fun b hb => hall b (List.mem_cons_of_mem _ hb)) hspec.1
  refine ⟨hspec.2.1, h1 ▸ hspec.2.2, hrest.1, hrest.2.1, hrest.2.2.1, hrest.2.2.2,
    ?_, ?_, ?_⟩
  · exact runUploads_rasterized_hits_mono rest _ _ hspec.2.1
  · exact runUploads_svg_hits_mono rest _ _ (h1 ▸ hspec.2.2)
  · intro calls c0 d0 i hids
    exact runUploads_svgs_length calls i hids c0 d0

/-- Witness for C1 at a concrete input: uploading the same 100×100,
scale-2 call twice against a fresh cache; after both calls the shared
`(7, 200, 200)` triple is touched, and the run of the second call
returned the same bitmap and left the device counter unchanged. -/
theorem upload_same_triple_witness :
    ((7, 200, 200) : Nat × Nat × Nat) ∈
      (runUploads envOk [callA]
        (Cache.upload envOk (Cache.new : Cache Nat) callA.handle
          (callA.w, callA.h) callA.scale ⟨0⟩).2.1
        (Cache.upload envOk (Cache.new : Cache Nat) callA.handle
          (callA.w, callA.h) callA.scale ⟨0⟩).2.2).2.1.rasterized_hits ∧
    (runUploads envOk [callA]
        (Cache.upload envOk (Cache.new : Cache Nat) callA.handle
          (callA.w, callA.h) callA.scale ⟨0⟩).2.1
        (Cache.upload envOk (Cache.new : Cache Nat) callA.handle
          (callA.w, callA.h) callA.scale ⟨0⟩).2.2).1 = [some 0] := by
  have h := upload_same_triple_spec envOk (Cache.new : Cache Nat) ⟨0⟩
    callA [callA] (7, 200, 200) 0
    (by
      intro b hb
      rcases List.mem_cons.mp hb with rfl | hb2
      · exact tripleA
      · rcases List.mem_cons.mp hb2 with rfl | hb3
        · exact tripleA
        · cases hb3)
    (show (Cache.upload envOk (Cache.new : Cache Nat) callA.handle
        (callA.w, callA.h) callA.scale ⟨0⟩).1 = some 0 by
      have hA : Cache.upload envOk (Cache.new : Cache Nat) callA.handle
          (callA.w, callA.h) callA.scale ⟨0⟩ = (some 0, cacheA, ⟨1⟩) := uploadA
      rw [hA])
  refine ⟨h.2.2.2.2.2.2.1, ?_⟩
  rw [h.2.2.1]
  rfl

/-- Claim C2 (counterexample). A triple requested via `upload` since the
previous trim need *not* be present in the rasterized cache after
`trim()`: when the document fails to parse, the upload request inserts
nothing and touches nothing, so the requested triple `(7, 10, 10)` is
absent after the trim even though it was requested.  Starting state
`Cache.new` has both touched-sets empty, exactly like a post-trim
state. -/
theorem trim_requested_absent_cex :
    (Cache.new : Cache Nat).svg_hits = [] ∧
    (Cache.new : Cache Nat).rasterized_hits = [] ∧
    callFail.triple = (7, 10, 10) ∧
    ((7, 10, 10) : Nat × Nat × Nat) ∉
      AList.keys
        (Cache.trim (runUploads envFail [callFail]
          (Cache.new : Cache Nat) ⟨0⟩).2.1).rasterized := by
  refine ⟨rfl, rfl, tripleFail, ?_⟩
  rw [runFailA]
  intro h
  simp [cacheNF, Cache.trim, AList.retain, AList.keys] at h

/-- Claim C2 (amended). Starting from a state with empty touched-sets (as
after a trim), run any frame of `upload` calls and then `trim()`.  Then:
both caches retain exactly the keys in their respective touched-sets and
both touched-sets are cleared; every triple that is not the resolved
triple of any requested upload is absent from the rasterized cache; and
every triple whose upload returned a bitmap is present.  (The original
claim's "every triple requested via upload is present" holds only for
uploads that actually returned a bitmap — see the counterexample.) -/
theorem trim_retains_touched {T : Type u} (env : ParseEnv T) (c0 : Cache T)
    (d0 : Device) (calls : List UploadCall)
    (_hs0 : c0.svg_hits = []) (hr0 : c0.rasterized_hits = []) :
    (∀ i : Nat,
      i ∈ AList.keys (Cache.trim (runUploads env calls c0 d0).2.1).svgs ↔
        i ∈ AList.keys (runUploads env calls c0 d0).2.1.svgs ∧
          i ∈ (runUploads env calls c0 d0).2.1.svg_hits) ∧
    (∀ k : Nat × Nat × Nat,
      k ∈ AList.keys (Cache.trim (runUploads env calls c0 d0).2.1).rasterized ↔
        k ∈ AList.keys (runUploads env calls c0 d0).2.1.rasterized ∧
          k ∈ (runUploads env calls c0 d0).2.1.rasterized_hits) ∧
    (Cache.trim (runUploads env calls c0 d0).2.1).svg_hits = [] ∧
    (Cache.trim (runUploads env calls c0 d0).2.1).rasterized_hits = [] ∧
    (∀ k : Nat × Nat × Nat, (∀ b ∈ calls, b.triple ≠ k) →
      k ∉ AList.keys (Cache.trim (runUploads env calls c0 d0).2.1).rasterized) ∧
    (∀ p ∈ List.zip calls (runUploads env calls c0 d0).1, p.2.isSome = true →
      p.1.triple ∈
        AList.keys (Cache.trim (runUploads env calls c0 d0).2.1).rasterized) := by
  refine ⟨fun i => Cache.trim_mem_keys_svgs .. , fun k => Cache.trim_mem_keys_rasterized ..,
    rfl, rfl, ?_, ?_⟩
  · intro k hnone hk
    rw [Cache.trim_mem_keys_rasterized] at hk
    rcases runUploads_rasterized_hits_sub calls c0 d0 hk.2 with ⟨b, hb, ht⟩ | h2
    · exact hnone b hb ht
    · rw [hr0] at h2
      cases h2
  · intro p hp hs
    have h := runUploads_success_present calls c0 d0 p hp hs
    rw [Cache.trim_mem_keys_rasterized]
    exact ⟨h.2, h.1⟩

/-- Witness for the amended C2 at a concrete input: one successful
100×100-at-scale-2 upload from a fresh cache; after the trim the
uploaded triple `(7, 200, 200)` is still a rasterized key, and both
touched-sets are cleared. -/
theorem trim_retains_touched_witness :
    ((7, 200, 200) : Nat × Nat × Nat) ∈
      AList.keys (Cache.trim (runUploads envOk [callA]
        (Cache.new : Cache Nat) ⟨0⟩).2.1).rasterized ∧
    (Cache.trim (runUploads envOk [callA]
      (Cache.new : Cache Nat) ⟨0⟩).2.1).svg_hits = [] := by
  have h := trim_retains_touched envOk (Cache.new : Cache Nat) ⟨0⟩ [callA] rfl rfl
  refine ⟨?_, h.2.2.1⟩
  have hm : (callA, some 0) ∈ List.zip [callA] (runUploads envOk [callA]
      (Cache.new : Cache Nat) ⟨0⟩).1 := by
    rw [runA]
    exact List.mem_cons_self ..
  have h2 := h.2.2.2.2.2 (callA, some 0) hm rfl
  rw [tripleA] at h2
  exact h2

/-- Claim C3. `upload` computes the target pixel dimensions as
`round(scale * width)` and `round(scale * height)` of the logical size,
and returns `none` precisely when a target dimension rounds to zero or
the document loads as `NotFound`; in every other case it returns a
bitmap.  The hypothesis — every rasterized entry has nonzero dimensions
and a `Loaded` document — holds in every state reachable from
`Cache::new`, which the last conjunct proves. -/
theorem upload_none_characterization {T : Type u} (env : ParseEnv T)
    (c : Cache T) (handle : Handle) (size : ℚ × ℚ) (scale : ℚ) (d : Device)
    (hg : GoodRasterized c) :
    ((Cache.upload env c handle size scale d).1 = none ↔
      (round (scale * size.1)).toNat = 0 ∨ (round (scale * size.2)).toNat = 0 ∨
        (Cache.load env c handle).1 = Svg.NotFound) ∧
    (∀ bg : Nat, (Cache.upload env c handle size scale d).1 = some bg →
      (handle.id, (round (scale * size.1)).toNat, (round (scale * size.2)).toNat) ∈
        (Cache.upload env c handle size scale d).2.1.rasterized_hits) ∧
    (∀ (ops : List (Op T)) (d0 : Device),
      GoodRasterized (runOps ops (Cache.new, d0)).1) := by
  refine ⟨Cache.upload_none_iff env c handle size scale d hg, ?_, ?_⟩
  · intro bg h
    exact (Cache.upload_isSome_spec h).2.1
  · intro ops d0
    exact good_runOps ops (Cache.new, d0) coupled_new good_new

/-- Witness for C3 at a concrete input: against a failing parse
environment and a fresh cache (which satisfies the invariant), an upload
of logical 10×10 at scale 1 returns nothing, via the `NotFound` arm of
the characterization. -/
theorem upload_none_characterization_witness :
    (Cache.upload envFail (Cache.new : Cache Nat) ⟨7, 3⟩ (10, 10) 1 ⟨0⟩).1 = none := by
  have h := upload_none_characterization envFail (Cache.new : Cache Nat)
    ⟨7, 3⟩ (10, 10) 1 ⟨0⟩ good_new
  refine h.1.mpr (Or.inr (Or.inr ?_))
  have hmiss : AList.find? (Cache.new : Cache Nat).svgs (⟨7, 3⟩ : Handle).id = none := rfl
  have hpf : envFail (⟨7, 3⟩ : Handle).path = none := rfl
  rw [Cache.load_of_miss_fail hmiss hpf]

/-- Claim C4 (counterexample). Uploading a 100×100 logical asset at scale
2.0 resolves to the pixel triple `(id, 200, 200)`, not `(id, 100, 100)`:
the target pixel size is `round(scale * logical)` = 200×200, so the
spec's expected "target pixel size 100×100" is wrong at this input. -/
theorem upload_scale_cex :
    targetDim 2 100 = 200 ∧
    ¬ targetDim 2 100 = 100 ∧
    (Cache.upload envOk (Cache.new : Cache Nat) ⟨7, 3⟩ (100, 100) 2
      ⟨0⟩).2.1.rasterized_hits = [(7, 200, 200)] ∧
    ((7, 100, 100) : Nat × Nat × Nat) ∉
      (Cache.upload envOk (Cache.new : Cache Nat) ⟨7, 3⟩ (100, 100) 2
        ⟨0⟩).2.1.rasterized_hits := by
  refine ⟨targetDim_two_100, by rw [targetDim_two_100]; decide, ?_, ?_⟩
  · rw [uploadA]
    rfl
  · rw [uploadA]
    intro h
    simp [cacheA] at h

/-- Claim C4 (amended). Uploading a 100×100 logical asset at scale 2.0
from a fresh cache yields the target pixel size 200×200 — determined
only by the requested logical size times the scale (the `upload`
signature receives no viewport or window bound at all), for any parse
environment, handle and device. -/
theorem upload_scale_spec {T : Type u} (env : ParseEnv T) (handle : Handle)
    (tree : T) (d : Device) (hp : env handle.path = some tree) :
    (Cache.upload env (Cache.new : Cache T) handle (100, 100) 2 d).1 =
      some d.nextBindGroup ∧
    (Cache.upload env (Cache.new : Cache T) handle (100, 100) 2 d).2.1.rasterized_hits =
      [(handle.id, 200, 200)] ∧
    targetDim 2 100 = 200 := by
  have hf : AList.find? (Cache.new : Cache T).rasterized
      (handle.id, targetDim 2 100, targetDim 2 100) = none := rfl
  have hl : Cache.load env (Cache.new : Cache T) handle =
      (Svg.Loaded tree,
       { (Cache.new : Cache T) with
           svgs := AList.insert [] handle.id (Svg.Loaded tree) }) :=
    Cache.load_of_miss_parse rfl hp
  have hw : targetDim 2 100 ≠ 0 := by rw [targetDim_two_100]; decide
  have h := @Cache.upload_miss_success T env Cache.new
    { (Cache.new : Cache T) with
        svgs := AList.insert [] handle.id (Svg.Loaded tree) }
    handle (100, 100) 2 d tree hf hl hw hw
  rw [h, targetDim_two_100]
  exact ⟨rfl, rfl, rfl⟩

/-- Witness for the amended C4 at a concrete input. -/
theorem upload_scale_spec_witness :
    (Cache.upload envOk (Cache.new : Cache Nat) ⟨7, 3⟩ (100, 100) 2 ⟨0⟩).2.1.rasterized_hits =
      [(7, 200, 200)] :=
  (upload_scale_spec envOk ⟨7, 3⟩ 0 ⟨0⟩ rfl).2.1

/-- Claim C5. `Radio::on_event` appends exactly one message — the stored
constructor applied to the radio's value — when the event is a left
mouse-button press with the cursor inside the layout bounds, and leaves
the sink unchanged for every other event or cursor position; in
particular a click on a radio built by `Radio::new` with value `V`
synthesizes exactly one message `f V` (regardless of the current
selection). -/
theorem radio_on_event_spec {M : Type u} {S : Type v} :
    (∀ (r : Radio M S) (e : Event) (b : Rectangle) (p : Point) (msgs : List M),
      Radio.on_event r e b p msgs =
        if Event.isLeftPress e && Rectangle.contains b p then
          msgs ++ [r.on_click ()]
        else msgs) ∧
    (∀ (V : Type) (iV : DecidableEq V) (iS : Inhabited S) (value : V)
        (lbl : String) (selected : Option V) (f : V → M) (e : Event)
        (b : Rectangle) (p : Point) (msgs : List M),
      Event.isLeftPress e = true → Rectangle.contains b p = true →
      Radio.on_event (@Radio.new M S V iV iS value lbl selected f) e b p msgs =
        msgs ++ [f value]) := by
  have hmain : ∀ (r : Radio M S) (e : Event) (b : Rectangle) (p : Point)
      (msgs : List M),
      Radio.on_event r e b p msgs =
        if Event.isLeftPress e && Rectangle.contains b p then
          msgs ++ [r.on_click ()]
        else msgs := by
    intro r e b p msgs
    cases e with
    | Mouse me =>
      cases me with
      | Input button state =>
        cases button <;> cases state <;>
          simp [Radio.on_event, Event.isLeftPress]
      | CursorMoved x y => simp [Radio.on_event, Event.isLeftPress]
      | WheelScrolled dx dy => simp [Radio.on_event, Event.isLeftPress]
    | Keyboard => simp [Radio.on_event, Event.isLeftPress]
    | Window => simp [Radio.on_event, Event.isLeftPress]
  refine ⟨hmain, ?_⟩
  intro V iV iS value lbl selected f e b p msgs hpress hcontains
  rw [hmain, hpress, hcontains]
  rfl

/-- Witness for C5 at a concrete input: a left press at `(1, 1)` inside
the bounds `(0, 0)–(10, 10)` on a radio with value `5` (current
selection `none ≠ some 5`) appends exactly the message `5`. -/
theorem radio_on_event_witness :
    Radio.on_event
        (Radio.new 5 "five" (none : Option Nat) (fun n => n) : Radio Nat Unit)
        (Event.Mouse (MouseEvent.Input MouseButton.Left ButtonState.Pressed))
        ⟨0, 0, 10, 10⟩ ⟨1, 1⟩ [] = [5] := by
  have h := (radio_on_event_spec (M := Nat) (S := Unit)).2 Nat
    inferInstance inferInstance 5 "five" none (fun n => n)
    (Event.Mouse (MouseEvent.Input MouseButton.Left ButtonState.Pressed))
    ⟨0, 0, 10, 10⟩ ⟨1, 1⟩ [] rfl (by norm_num [Rectangle.contains])
  exact h

/-- For a duplicate-free list, `countP` of "equals `s`" is at most one,
and exactly one when `s` occurs. -/
theorem countP_eq_of_nodup {V : Type} [DecidableEq V] (s : V) (vs : List V)
    (h : vs.Nodup) :
    List.countP (fun v => decide (v = s)) vs ≤ 1 ∧
      (s ∈ vs → List.countP (fun v => decide (v = s)) vs = 1) := by
  induction vs with
  | nil => simp
  | cons a t ih =>
    have hnd := List.nodup_cons.mp h
    by_cases ha : a = s
    · subst ha
      have h0 : List.countP (fun v => decide (v = a)) t = 0 := by
        rw [List.countP_eq_zero]
        intro b hb
        simp only [decide_eq_true_eq]
        rintro rfl
        exact hnd.1 hb
      constructor
      · rw [List.countP_cons]
        simp [h0]
      · intro _
        rw [List.countP_cons]
        simp [h0]
    · have ih2 := ih hnd.2
      constructor
      · rw [List.countP_cons]
        simpa [ha] using ih2.1
      · intro hs
        rcases List.mem_cons.mp hs with rfl | hs2
        · exact absurd rfl ha
        · rw [List.countP_cons]
          simpa [ha] using ih2.2 hs2

/-- Claim C6 (counterexample). "Exactly one widget among those sharing a
selection value reports `is_selected = true`" fails when the shared
`selected` value is `none` (or any value outside the candidate set):
for the radios over values `0` and `1` with `selected = none`, zero
widgets — not one — report selected. -/
theorem radio_exactly_one_cex :
    List.countP
        (fun v => (Radio.new v "c" (none : Option Nat) (fun n => n) :
          Radio Nat Unit).is_selected)
        [0, 1] = 0 ∧
      ¬ List.countP
          (fun v => (Radio.new v "c" (none : Option Nat) (fun n => n) :
            Radio Nat Unit).is_selected)
          [0, 1] = 1 := by
  constructor
  · decide
  · decide

/-- Claim C6 (amended). A radio built by `Radio::new` reports
`is_selected = true` precisely when `Some(its value)` equals `selected`
under value equality; hence over pairwise-distinct candidate values
sharing one `selected`, *at most* one radio reports selected — and
*exactly* one when `selected` is `some` of one of the candidates. -/
theorem radio_selected_spec {M : Type u} {S : Type v} (V : Type)
    (iV : DecidableEq V) (iS : Inhabited S) (lbl : String)
    (selected : Option V) (f : V → M) :
    (∀ value : V,
      (@Radio.new M S V iV iS value lbl selected f).is_selected = true ↔
        some value = selected) ∧
    (∀ vs : List V, vs.Nodup →
      List.countP
          (fun v => (@Radio.new M S V iV iS v lbl selected f).is_selected)
          vs ≤ 1 ∧
        (∀ s : V, selected = some s → s ∈ vs →
          List.countP
              (fun v => (@Radio.new M S V iV iS v lbl selected f).is_selected)
              vs = 1)) := by
  constructor
  · intro value
    simp [Radio.new]
  · intro vs hnd
    cases selected with
    | none =>
      have h0 : List.countP
          (fun v => (@Radio.new M S V iV iS v lbl none f).is_selected) vs = 0 := by
        rw [List.countP_eq_zero]
        intro b _
        simp [Radio.new]
      constructor
      · rw [h0]
        exact Nat.zero_le 1
      · intro s hs
        cases hs
    | some s =>
      have hpred : (fun v => (@Radio.new M S V iV iS v lbl (some s) f).is_selected) =
          (fun v => decide (v = s)) := by
        funext v
        simp [Radio.new]
      rw [hpred]
      have h := countP_eq_of_nodup s vs hnd
      exact ⟨h.1, fun s2 hs2 hmem => by
        cases hs2
        exact h.2 hmem⟩

/-- Witness for the amended C6 at a concrete input: over the distinct
values `[0, 1, 2]` with `selected = some 1`, exactly one radio reports
selected; with the characterization instance at value `1`. -/
theorem radio_selected_witness :
    List.countP
        (fun v => (Radio.new v "c" (some 1 : Option Nat) (fun n => n) :
          Radio Nat Unit).is_selected)
        [0, 1, 2] = 1 ∧
      ((Radio.new 1 "c" (some 1 : Option Nat) (fun n => n) :
        Radio Nat Unit).is_selected = true ↔ some 1 = some 1) := by
  have h := radio_selected_spec (M := Nat) (S := Unit) Nat
    inferInstance inferInstance "c" (some 1) (fun n => n)
  exact ⟨(h.2 [0, 1, 2] (by decide)).2 1 rfl (by decide), h.1 1⟩

/-- Claim C7. When parsing fails, `load` stores the `NotFound` sentinel
under the content id and returns it; any later `load` for the same id —
under *any* parse environment, even one in which the parse would now
succeed — returns the cached sentinel with the cache unchanged (no
re-parse); and `upload` for that asset returns `none` with the cache and
the device returned unchanged (no rasterized entry inserted, no
allocation, no panic — the embedding is total).  The invariant
hypothesis holds in every reachable state (see C3's last conjunct). -/
theorem load_notFound_sentinel {T : Type u} (env env2 : ParseEnv T)
    (c : Cache T) (handle : Handle) (size : ℚ × ℚ) (scale : ℚ) (d : Device)
    (hg : GoodRasterized c)
    (hmiss : AList.find? c.svgs handle.id = none)
    (hfail : env handle.path = none) :
    (Cache.load env c handle).1 = Svg.NotFound ∧
    AList.find? (Cache.load env c handle).2.svgs handle.id = some Svg.NotFound ∧
    Cache.load env2 (Cache.load env c handle).2 handle =
      (Svg.NotFound, (Cache.load env c handle).2) ∧
    Cache.upload env2 (Cache.load env c handle).2 handle size scale d =
      (none, (Cache.load env c handle).2, d) := by
  have hl := Cache.load_of_miss_fail hmiss hfail
  rw [hl]
  have hfind : AList.find?
      { c with svgs := AList.insert c.svgs handle.id Svg.NotFound }.svgs
      handle.id = some Svg.NotFound := AList.find?_insert_self ..
  refine ⟨rfl, hfind, Cache.load_of_find hfind, ?_⟩
  have hfr : AList.find?
      { c with svgs := AList.insert c.svgs handle.id Svg.NotFound }.rasterized
      (handle.id, targetDim scale size.1, targetDim scale size.2) = none := by
    cases hb : AList.find? c.rasterized
        (handle.id, targetDim scale size.1, targetDim scale size.2) with
    | none => rfl
    | some bg =>
      exfalso
      obtain ⟨_, _, t, ht⟩ := hg _ (AList.mem_keys_of_find?_eq_some hb)
      rw [hmiss] at ht
      cases ht
  exact Cache.upload_miss_notFound hfr (Cache.load_of_find hfind)

/-- Witness for C7 at a concrete input: the fresh cache, a failing
parser, and a 10×10 upload at scale 1. -/
theorem load_notFound_sentinel_witness :
    (Cache.load envFail (Cache.new : Cache Nat) ⟨7, 3⟩).1 = Svg.NotFound ∧
    Cache.upload envOk (Cache.load envFail (Cache.new : Cache Nat) ⟨7, 3⟩).2
        ⟨7, 3⟩ (10, 10) 1 ⟨0⟩ =
      (none, (Cache.load envFail (Cache.new : Cache Nat) ⟨7, 3⟩).2, ⟨0⟩) := by
  have h := load_notFound_sentinel envFail envOk (Cache.new : Cache Nat)
    ⟨7, 3⟩ (10, 10) 1 ⟨0⟩ good_new rfl rfl
  exact ⟨h.1, h.2.2.2⟩

/-- Claim C8. Two consecutive `trim()` calls with no uploads in between
leave both caches (and both touched-sets) completely empty, from any
starting state: the first trim clears the touched-sets, so the second
retains nothing. -/
theorem trim_twice_empties {T : Type u} (c : Cache T) :
    (Cache.trim (Cache.trim c)).svgs = [] ∧
    (Cache.trim (Cache.trim c)).rasterized = [] ∧
    (Cache.trim (Cache.trim c)).svg_hits = [] ∧
    (Cache.trim (Cache.trim c)).rasterized_hits = [] := by
  refine ⟨?_, ?_, rfl, rfl⟩
  · simp [Cache.trim, AList.retain]
  · simp [Cache.trim, AList.retain]

/-- Witness for C8 (the statement quantifies only over data, but we
record the concrete evaluation at a nonempty cache anyway). -/
theorem trim_twice_empties_witness :
    (Cache.trim (Cache.trim cacheA)).svgs = [] ∧
    (Cache.trim (Cache.trim cacheA)).rasterized = [] ∧
    (Cache.trim (Cache.trim cacheA)).svg_hits = [] ∧
    (Cache.trim (Cache.trim cacheA)).rasterized_hits = [] :=
  trim_twice_empties cacheA

/-- Claim C9. Every `load`, `upload`, `trim` preserves the two couplings
(every rasterized key's content id is a parsed-cache key; every touched
triple's content id is a touched document id), and therefore every state
reachable from `Cache::new` by any operation sequence satisfies
both. -/
theorem cache_coupling_invariant {T : Type u} :
    (∀ (op : Op T) (s : Cache T × Device), Coupled s.1 →
      Coupled (Op.apply op s).1) ∧
    (∀ (ops : List (Op T)) (d0 : Device),
      Coupled (runOps ops (Cache.new, d0)).1) := by
  constructor
  · exact coupled_apply
  · intro ops d0
    exact coupled_runOps ops (Cache.new, d0) coupled_new

/-- Witness for C9 at concrete inputs: a run consisting of a successful
upload followed by a trim, and single-step preservation applied to the
populated cache `cacheA`. -/
theorem cache_coupling_witness :
    Coupled (runOps [Op.upload envOk callA, Op.trim]
      ((Cache.new : Cache Nat), ⟨0⟩)).1 ∧
    Coupled (Op.apply (Op.trim : Op Nat) (cacheA, ⟨1⟩)).1 := by
  have h := cache_coupling_invariant (T := Nat)
  refine ⟨h.2 [Op.upload envOk callA, Op.trim] ⟨0⟩,
    h.1 Op.trim (cacheA, ⟨1⟩) ?_⟩
  constructor
  · intro k hk
    simp [cacheA, AList.keys] at hk
    subst hk
    simp [cacheA, AList.keys]
  · intro k hk
    simp [cacheA] at hk
    subst hk
    simp [cacheA]

/-- Claim C10. `Radio::hash_layout` feeds only the label into the hasher:
radios with equal labels produce identical hasher states whatever their
`is_selected`, `on_click` or `style`, so a selection change alone never
changes the layout hash. -/
theorem radio_hash_layout_only_label {M : Type u} {S : Type v} :
    (∀ (r1 r2 : Radio M S) (st : Hasher), r1.label = r2.label →
      Radio.hash_layout r1 st = Radio.hash_layout r2 st) ∧
    (∀ (r : Radio M S) (st : Hasher),
      Radio.hash_layout r st = hashString r.label st) := by
  constructor
  · intro r1 r2 st h
    rw [Radio.hash_layout, Radio.hash_layout, h]
  · intro r st
    rfl

/-- Witness for C10 at concrete inputs: two radios sharing the label
`"ab"` but differing in selection flag, click message and style hash
identically. -/
theorem radio_hash_layout_witness :
    Radio.hash_layout (⟨true, fun _ => 0, "ab", 5⟩ : Radio Nat Nat) [] =
      Radio.hash_layout (⟨false, fun _ => 1, "ab", 9⟩ : Radio Nat Nat) [] :=
  radio_hash_layout_only_label.1
    (⟨true, fun _ => 0, "ab", 5⟩ : Radio Nat Nat)
    (⟨false, fun _ => 1, "ab", 9⟩ : Radio Nat Nat) [] rfl

end Iced
